import Mathlib

/-!
Verification of the pypes pipe-calculator (src/pypes.py).

Modelling conventions:
* Python floats are idealised as rationals (`ℚ`).  The equal-temperament
  ratio `2 ** (1.0 / step)` (line 84) is irrational, so it is carried as a
  symbolic parameter `et_step : ℚ`; every theorem quantifies over it, which
  makes each statement hold in particular at the intended value.
* Python ints are `ℤ` (mode entries, root index, the octave multiplier and
  chromatic cursor) or `ℕ` (loop counters, `args.step`, `args.numpipes`).
  Python's `%` on a positive modulus agrees with `Int.emod`.
* List indexing uses `List.getD` with default `0`; every claim that reads an
  index supplies hypotheses under which the index is in range, matching the
  places where the Python code cannot raise `IndexError`.
* Places where the Python code can raise `ZeroDivisionError` are modelled by
  an `Except String` pipeline (`et_step_checked`, `pipeAuxE`, `get_lengthE`,
  `pypesRun`) that fails exactly at the failing division.
-/

namespace Pypes

/-- Line 59-62: `get_length(freq, args)`.
`velcm = args.velocity * 100.0; velcm / (4 * freq) + args.plug - 0.4 * args.diameter`. -/
def get_length (freq velocity plug diameter : ℚ) : ℚ :=
  let velcm := velocity * 100
  velcm / (4 * freq) + plug - 0.4 * diameter

/-- Python slice boundary: the index at which `l[off:]` starts and `l[:off]`
stops, for a list of length `n` — negative offsets count from the end and
everything is clamped into `[0, n]`. -/
def pySliceIndex (n : ℕ) (off : ℤ) : ℕ :=
  if off < 0 then ((n : ℤ) + off).toNat else min off.toNat n

/-- Lines 72-74: `off = args.index - 1; args.mode = args.mode[off:] + args.mode[:off]`,
with Python slicing semantics. -/
def rotate_mode (mode : List ℤ) (index : ℤ) : List ℤ :=
  let off := index - 1
  let k := pySliceIndex mode.length off
  mode.drop k ++ mode.take k

/-- Lines 77-81: the advisory is printed exactly when the mode's steps do not
sum to `args.step`. -/
def warning_emitted (mode : List ℤ) (step : ℕ) : Bool :=
  mode.sum ≠ (step : ℤ)

/-- Lines 84-88, entrywise: `chrom_freqs[0] = fundamental`,
`chrom_freqs[i] = chrom_freqs[i-1] * et_step`. -/
def chromFreq (fundamental et_step : ℚ) : ℕ → ℚ
  | 0 => fundamental
  | k + 1 => chromFreq fundamental et_step k * et_step

/-- Lines 85-88: the chromatic table, a list of `step` frequencies. -/
def chrom_freqs (fundamental et_step : ℚ) (step : ℕ) : List ℚ :=
  (List.range step).map (chromFreq fundamental et_step)

/-- The state carried by the loop of lines 96-109: `cf_index`, `octave`, and
the prefix of `pipe_freqs` filled in so far. -/
structure LoopState where
  cf_index : ℤ
  octave : ℤ
  freqs : List ℚ
  deriving Repr, DecidableEq

/-- One iteration of the loop body, lines 97-109, at loop counter `ith`.
The first branch is the "double the value from an octave below" shortcut of
lines 97-100; the second is the general recurrence of lines 101-109. -/
def pipeBody (double_safe : Bool) (mode : List ℤ) (step : ℕ) (chrom : List ℚ)
    (s : LoopState) (ith : ℕ) : LoopState :=
  if double_safe ∧ ith > mode.length then
    { s with freqs := s.freqs ++ [s.freqs.getD (ith - (mode.length + 1)) 0 * 2] }
  else
    let octave := if ith % mode.length = 0 then s.octave * 2 else s.octave
    let cf := (s.cf_index + mode.getD ((ith - 1) % mode.length) 0) % (step : ℤ)
    { cf_index := cf
      octave := octave
      freqs := s.freqs ++ [chrom.getD cf.toNat 0 * (octave : ℚ)] }

/-- Lines 91-95 (initial state) plus the first `k` iterations of the loop:
`pipeAux ds mode step chrom k` is the state after `ith` has run through
`1, 2, ..., k`. -/
def pipeAux (double_safe : Bool) (mode : List ℤ) (step : ℕ) (chrom : List ℚ) :
    ℕ → LoopState
  | 0 => { cf_index := 0, octave := 1, freqs := [chrom.getD 0 0] }
  | k + 1 => pipeBody double_safe mode step chrom
      (pipeAux double_safe mode step chrom k) (k + 1)

/-- Line 94: `double_safe = False` is reassigned unconditionally just before
the generation loop, whatever the mode and step are. -/
def double_safe_at_loop (_mode : List ℤ) (_step : ℕ) : Bool := false

/-- Lines 91-109: the full `pipe_freqs` table for `numpipes ≥ 1` pipes, as the
program computes it (so with the guard value of line 94). -/
def pipe_freqs (mode : List ℤ) (step : ℕ) (chrom : List ℚ) (numpipes : ℕ) :
    List ℚ :=
  (pipeAux (double_safe_at_loop mode step) mode step chrom (numpipes - 1)).freqs

/-! Spec-side definitions, written from the words of §4.1 and §4.3 of the
specification, to be compared with the code-side definitions above. -/

/-- Spec §4.1/§7: the base pattern rotated left by `(rootIndex - 1) mod L`. -/
def rotate_mode_spec (mode : List ℤ) (index : ℤ) : List ℤ :=
  mode.rotate ((index - 1) % (mode.length : ℤ)).toNat

/-- Spec §4.3 step 3: `chromaticIndex` after pipes `1..i` have been consumed,
starting at 0; the step consumed for pipe `i` is `pattern[(i - 1) mod L]`. -/
def specCf (mode : List ℤ) (step : ℕ) : ℕ → ℤ
  | 0 => 0
  | i + 1 => (specCf mode step i + mode.getD (i % mode.length) 0) % (step : ℤ)

/-- Spec §4.3 step 2: `octaveMultiplier` in force at pipe `i`, starting at 1
and doubling exactly when `i mod L = 0` (before consuming pipe `i`'s step). -/
def specOct (mode : List ℤ) : ℕ → ℤ
  | 0 => 1
  | i + 1 => if (i + 1) % mode.length = 0 then specOct mode i * 2
             else specOct mode i

/-- Spec §4.3: `frequency[0] = chromaticTable[0]` and
`frequency[i] = chromaticTable[chromaticIndex] * octaveMultiplier`. -/
def specPipeFreq (mode : List ℤ) (step : ℕ) (chrom : List ℚ) : ℕ → ℚ
  | 0 => chrom.getD 0 0
  | i + 1 =>
      chrom.getD (specCf mode step (i + 1)).toNat 0 * ((specOct mode (i + 1) : ℤ) : ℚ)

/-- Spec §4.3: the plain-recurrence pipe-frequency series of length `numpipes`. -/
def specPipeSeries (mode : List ℤ) (step : ℕ) (chrom : List ℚ) (numpipes : ℕ) :
    List ℚ :=
  (List.range numpipes).map (specPipeFreq mode step chrom)

/-! Fallible pipeline: the same computation with an `Except` at every place
where the Python code divides, failing exactly where it would raise. -/

/-- Line 84: `2 ** (1.0 / args.step)` raises `ZeroDivisionError` when
`args.step = 0`; otherwise the (symbolic) ratio is produced. -/
def et_step_checked (et_step : ℚ) (step : ℕ) : Except String ℚ :=
  if step = 0 then .error "ZeroDivisionError: float division by zero"
  else .ok et_step

/-- Lines 96-109 with the modulo operations checked: `ith % pipes_per_octave`
(line 104) raises when the mode is empty. `args.step = 0` is unreachable here
because line 84 has already raised. -/
def pipeAuxE (mode : List ℤ) (step : ℕ) (chrom : List ℚ) :
    ℕ → Except String LoopState
  | 0 => .ok { cf_index := 0, octave := 1, freqs := [chrom.getD 0 0] }
  | k + 1 => do
      let s ← pipeAuxE mode step chrom k
      if mode.length = 0 then
        .error "ZeroDivisionError: integer modulo by zero"
      else
        .ok (pipeBody false mode step chrom s (k + 1))

/-- Lines 91-109, fallible version producing the `pipe_freqs` list. -/
def pipe_freqsE (mode : List ℤ) (step : ℕ) (chrom : List ℚ) (numpipes : ℕ) :
    Except String (List ℚ) :=
  (pipeAuxE mode step chrom (numpipes - 1)).map (·.freqs)

/-- Lines 59-62 with the division checked: `velcm / (4 * freq)` raises when
`freq = 0`. -/
def get_lengthE (freq velocity plug diameter : ℚ) : Except String ℚ :=
  if freq = 0 then .error "ZeroDivisionError: float division by zero"
  else .ok (get_length freq velocity plug diameter)

/-- The whole computational pass (lines 84-112): chromatic table, pipe
frequencies, then pipe lengths, failing at the first Python arithmetic error. -/
def pypesRun (et_step fundamental : ℚ) (step numpipes : ℕ) (mode : List ℤ)
    (velocity plug diameter : ℚ) : Except String (List ℚ) := do
  let et ← et_step_checked et_step step
  let chrom := chrom_freqs fundamental et step
  let freqs ← pipe_freqsE mode step chrom numpipes
  freqs.mapM (fun f => get_lengthE f velocity plug diameter)

/-! Helper lemmas. -/

/-- Reading a mapped range at an in-range index. -/
lemma getD_map_range (f : ℕ → ℚ) (n k : ℕ) (h : k < n) :
    ((List.range n).map f).getD k 0 = f k := by
  simp [List.getD_eq_getElem?_getD, List.getElem?_map, List.getElem?_range, h]

/-- The chromatic table read at an in-range index is `chromFreq`. -/
lemma chrom_freqs_getD (fundamental et_step : ℚ) (step k : ℕ) (h : k < step) :
    (chrom_freqs fundamental et_step step).getD k 0 =
      chromFreq fundamental et_step k :=
  getD_map_range _ _ _ h

/-- With the guard false, the loop body always takes the general-recurrence
branch. -/
lemma pipeBody_false (mode : List ℤ) (step : ℕ) (chrom : List ℚ)
    (s : LoopState) (ith : ℕ) :
    pipeBody false mode step chrom s ith =
      { cf_index := (s.cf_index + mode.getD ((ith - 1) % mode.length) 0) % (step : ℤ)
        octave := if ith % mode.length = 0 then s.octave * 2 else s.octave
        freqs := s.freqs ++
          [chrom.getD ((s.cf_index + mode.getD ((ith - 1) % mode.length) 0) %
              (step : ℤ)).toNat 0 *
            ((if ith % mode.length = 0 then s.octave * 2 else s.octave : ℤ) : ℚ)] } := by
  simp [pipeBody]

/-- The loop's chromatic cursor agrees with the spec recurrence. -/
lemma pipeAux_cf (mode : List ℤ) (step : ℕ) (chrom : List ℚ) (k : ℕ) :
    (pipeAux false mode step chrom k).cf_index = specCf mode step k := by
  induction k with
  | zero => rfl
  | succ k ih =>
    show (pipeBody false mode step chrom (pipeAux false mode step chrom k)
      (k + 1)).cf_index = _
    rw [pipeBody_false]
    simp [specCf, ih]

/-- The loop's octave multiplier agrees with the spec recurrence. -/
lemma pipeAux_oct (mode : List ℤ) (step : ℕ) (chrom : List ℚ) (k : ℕ) :
    (pipeAux false mode step chrom k).octave = specOct mode k := by
  induction k with
  | zero => rfl
  | succ k ih =>
    show (pipeBody false mode step chrom (pipeAux false mode step chrom k)
      (k + 1)).octave = _
    rw [pipeBody_false]
    simp [specOct, ih]

/-- The frequencies accumulated by the loop are exactly the spec series. -/
lemma pipeAux_freqs (mode : List ℤ) (step : ℕ) (chrom : List ℚ) (k : ℕ) :
    (pipeAux false mode step chrom k).freqs =
      (List.range (k + 1)).map (specPipeFreq mode step chrom) := by
  induction k with
  | zero =>
    have h1 : List.range 1 = [0] := rfl
    simp [pipeAux, h1, specPipeFreq]
  | succ k ih =>
    show (pipeBody false mode step chrom (pipeAux false mode step chrom k)
      (k + 1)).freqs = _
    rw [pipeBody_false]
    simp only [List.range_succ (n := k + 1)]
    rw [List.map_append]
    simp only [ih, List.map_cons, List.map_nil]
    congr 1
    simp [specPipeFreq, specCf, specOct, pipeAux_cf, pipeAux_oct]

/-- The generated pipe table is the plain §4.3 recurrence series. -/
lemma pipe_freqs_eq_spec (mode : List ℤ) (step : ℕ) (chrom : List ℚ)
    (numpipes : ℕ) (h : 1 ≤ numpipes) :
    pipe_freqs mode step chrom numpipes = specPipeSeries mode step chrom numpipes := by
  unfold pipe_freqs specPipeSeries double_safe_at_loop
  rw [pipeAux_freqs]
  congr 2
  omega

/-- Unfolding of the spec series at a positive pipe index. -/
lemma specPipeFreq_pos (mode : List ℤ) (step : ℕ) (chrom : List ℚ) (i : ℕ)
    (h : 1 ≤ i) :
    specPipeFreq mode step chrom i =
      chrom.getD (specCf mode step i).toNat 0 * ((specOct mode i : ℤ) : ℚ) := by
  obtain ⟨j, rfl⟩ : ∃ j, i = j + 1 := ⟨i - 1, by omega⟩
  rfl

/-- The generated table has exactly `numpipes` entries. -/
lemma pipe_freqs_length (mode : List ℤ) (step : ℕ) (chrom : List ℚ)
    (numpipes : ℕ) (h : 1 ≤ numpipes) :
    (pipe_freqs mode step chrom numpipes).length = numpipes := by
  rw [pipe_freqs_eq_spec mode step chrom numpipes h]
  simp [specPipeSeries]

/-- Pipe 0 is the chromatic table's first entry. -/
lemma pipe_freqs_getD_zero (mode : List ℤ) (step : ℕ) (chrom : List ℚ)
    (numpipes : ℕ) (h : 1 ≤ numpipes) :
    (pipe_freqs mode step chrom numpipes).getD 0 0 = chrom.getD 0 0 := by
  rw [pipe_freqs_eq_spec mode step chrom numpipes h]
  unfold specPipeSeries
  rw [getD_map_range _ _ _ (by omega)]
  rfl

/-- Pipe `i ≥ 1` follows the §4.3 recurrence. -/
lemma pipe_freqs_getD_pos (mode : List ℤ) (step : ℕ) (chrom : List ℚ)
    (numpipes i : ℕ) (h : 1 ≤ numpipes) (h1 : 1 ≤ i) (h2 : i < numpipes) :
    (pipe_freqs mode step chrom numpipes).getD i 0 =
      chrom.getD (specCf mode step i).toNat 0 * ((specOct mode i : ℤ) : ℚ) := by
  rw [pipe_freqs_eq_spec mode step chrom numpipes h]
  unfold specPipeSeries
  rw [getD_map_range _ _ _ h2]
  exact specPipeFreq_pos mode step chrom i h1

/-- For a non-empty mode the fallible loop never fails and agrees with the
total one. -/
lemma pipeAuxE_ok (mode : List ℤ) (step : ℕ) (chrom : List ℚ)
    (h : mode ≠ []) (k : ℕ) :
    pipeAuxE mode step chrom k = .ok (pipeAux false mode step chrom k) := by
  have hlen : mode.length ≠ 0 := by simpa using h
  induction k with
  | zero => rfl
  | succ k ih =>
    simp only [pipeAuxE, ih, hlen]
    rfl

/-- For an empty mode the fallible loop fails at its first iteration. -/
lemma pipeAuxE_nil (step : ℕ) (chrom : List ℚ) (k : ℕ) (h : 1 ≤ k) :
    pipeAuxE [] step chrom k =
      .error "ZeroDivisionError: integer modulo by zero" := by
  induction k with
  | zero => omega
  | succ k ih =>
    rcases Nat.eq_zero_or_pos k with hk | hk
    · subst hk
      rfl
    · simp only [pipeAuxE, ih hk]
      rfl

/-- A zero fundamental propagates to a zero chromatic recurrence. -/
lemma chromFreq_zero (et_step : ℚ) (k : ℕ) : chromFreq 0 et_step k = 0 := by
  induction k with
  | zero => rfl
  | succ k ih => simp [chromFreq, ih]

/-- Every read of the zero-fundamental chromatic table yields 0. -/
lemma chrom_freqs_zero_getD (et_step : ℚ) (step k : ℕ) :
    (chrom_freqs 0 et_step step).getD k 0 = 0 := by
  rcases Nat.lt_or_ge k step with h | h
  · rw [chrom_freqs_getD _ _ _ _ h, chromFreq_zero]
  · exact List.getD_eq_default _ _ (by simpa [chrom_freqs] using h)

/-- Binding a successful `Except` applies the continuation. -/
lemma except_bind_ok {α β : Type} (x : α) (f : α → Except String β) :
    Except.bind (Except.ok x) f = f x := rfl

/-- Binding a failed `Except` keeps the error. -/
lemma except_bind_error {α β : Type} (e : String) (f : α → Except String β) :
    Except.bind (Except.error e) f = Except.error e := rfl

/-- Taking the length of a frequency list that starts with 0 fails at once. -/
lemma mapM_get_lengthE_zero_head (t : List ℚ) (velocity plug diameter : ℚ) :
    (0 :: t).mapM (fun f => get_lengthE f velocity plug diameter) =
      .error "ZeroDivisionError: float division by zero" := rfl

/-- A pipe table built over the zero-fundamental chromatic table starts with 0. -/
lemma pipe_freqs_zero_head (et_step : ℚ) (mode : List ℤ) (step numpipes : ℕ)
    (hnum : 1 ≤ numpipes) :
    ∃ t, pipe_freqs mode step (chrom_freqs 0 et_step step) numpipes = 0 :: t := by
  have hlen := pipe_freqs_length mode step (chrom_freqs 0 et_step step) numpipes hnum
  have h0 : (pipe_freqs mode step (chrom_freqs 0 et_step step) numpipes).getD 0 0
      = 0 := by
    rw [pipe_freqs_getD_zero mode step _ numpipes hnum, chrom_freqs_zero_getD]
  cases hp : pipe_freqs mode step (chrom_freqs 0 et_step step) numpipes with
  | nil => rw [hp] at hlen; simp at hlen; omega
  | cons a t =>
    refine ⟨t, ?_⟩
    rw [hp] at h0
    simpa using h0

end Pypes

namespace Pypes

/-- C2: the chromatic table built from fundamental `f` and `stepsPerOctave = N ≥ 1`
has exactly `N` entries, entry 0 is `f` exactly, and each later entry is the
previous one times the step ratio (the ratio `2^(1/N)` is carried symbolically
as `et_step`, since the program computes it once and only multiplies by it). -/
theorem chromatic_table_recurrence (fundamental et_step : ℚ) (step : ℕ)
    (h : 1 ≤ step) :
    (chrom_freqs fundamental et_step step).length = step ∧
    (chrom_freqs fundamental et_step step).getD 0 0 = fundamental ∧
    ∀ k, 1 ≤ k → k < step →
      (chrom_freqs fundamental et_step step).getD k 0 =
        (chrom_freqs fundamental et_step step).getD (k - 1) 0 * et_step := by
  refine ⟨by simp [chrom_freqs], ?_, ?_⟩
  · rw [chrom_freqs_getD _ _ _ _ h]; rfl
  · intro k hk1 hk2
    rw [chrom_freqs_getD _ _ _ _ hk2, chrom_freqs_getD _ _ _ _ (by omega)]
    obtain ⟨j, rfl⟩ : ∃ j, k = j + 1 := ⟨k - 1, by omega⟩
    simp [chromFreq]

/-- Witness for C2 at `step = 12`. -/
theorem chromatic_table_recurrence_witness :
    1 ≤ 12 ∧
    ((chrom_freqs 2 3 12).length = 12 ∧
     (chrom_freqs 2 3 12).getD 0 0 = 2 ∧
     ∀ k, 1 ≤ k → k < 12 →
       (chrom_freqs 2 3 12).getD k 0 = (chrom_freqs 2 3 12).getD (k - 1) 0 * 3) :=
  ⟨by decide, chromatic_table_recurrence 2 3 12 (by decide)⟩

/-- C5: for nonzero frequency the length calculator returns exactly
`velocity * 100 / (4 * freq) + plug - 0.4 * diameter`, with no clamping of
negative results (the witness evaluates it to a negative length). -/
theorem get_length_formula (freq velocity plug diameter : ℚ) (h : freq ≠ 0) :
    get_length freq velocity plug diameter =
      velocity * 100 / (4 * freq) + plug - 0.4 * diameter := rfl

/-- Witness for C5: a concrete input whose uncorrected result is negative. -/
theorem get_length_formula_witness :
    (1000 : ℚ) ≠ 0 ∧
    get_length 1000 343 0 50 = 343 * 100 / (4 * 1000) + 0 - 0.4 * 50 ∧
    get_length 1000 343 0 50 < 0 :=
  ⟨by norm_num, get_length_formula 1000 343 0 50 (by norm_num),
   by norm_num [get_length]⟩

/-- C8: for fixed positive speed of sound, plug depth and diameter, the length
calculator is strictly decreasing in frequency on `0 < f`. -/
theorem get_length_strict_anti (velocity plug diameter f1 f2 : ℚ)
    (hv : 0 < velocity) (h1 : 0 < f1) (h12 : f1 < f2) :
    get_length f2 velocity plug diameter < get_length f1 velocity plug diameter := by
  unfold get_length
  have key : velocity * 100 / (4 * f2) < velocity * 100 / (4 * f1) :=
    div_lt_div_of_pos_left (by positivity) (by positivity) (by linarith)
  simpa using by linarith

/-- Witness for C8 at concrete frequencies 100 < 200. -/
theorem get_length_strict_anti_witness :
    (0 : ℚ) < 343 ∧ (0 : ℚ) < 100 ∧ (100 : ℚ) < 200 ∧
    get_length 200 343 1 2 < get_length 100 343 1 2 :=
  ⟨by norm_num, by norm_num, by norm_num,
   get_length_strict_anti 343 1 2 100 200 (by norm_num) (by norm_num) (by norm_num)⟩

/-- C10: rotating with `rootIndex = 1` and with `rootIndex = L + 1` produce the
same pattern (both leave the base pattern unrotated). -/
theorem rotate_mode_one_eq_len_succ (mode : List ℤ) (h : mode ≠ []) :
    rotate_mode mode 1 = rotate_mode mode ((mode.length : ℤ) + 1) := by
  have hn : ¬ ((mode.length : ℤ) < 0) := by omega
  simp [rotate_mode, pySliceIndex, hn]

/-- Witness for C10 on the diatonic pattern. -/
theorem rotate_mode_one_eq_len_succ_witness :
    ([2, 2, 1, 2, 2, 2, 1] : List ℤ) ≠ [] ∧
    rotate_mode [2, 2, 1, 2, 2, 2, 1] 1 =
      rotate_mode [2, 2, 1, 2, 2, 2, 1] (([2, 2, 1, 2, 2, 2, 1] : List ℤ).length + 1) :=
  ⟨by decide, rotate_mode_one_eq_len_succ [2, 2, 1, 2, 2, 2, 1] (by decide)⟩

/-- Counterexample to C4: with base pattern `[1, 2, 3]` and `rootIndex = 5`
the code's slice-based rotation returns the pattern unrotated, while rotation
by `(5 - 1) mod 3 = 1` would not. -/
theorem rotate_mode_modulo_cex :
    rotate_mode [1, 2, 3] 5 ≠ rotate_mode_spec [1, 2, 3] 5 := by decide

/-- C4 amended: the built pattern equals the base rotated left by
`(rootIndex - 1) mod L` only while `|rootIndex - 1| ≤ L`; for root indices
further out the Python slices clamp and the pattern is returned unrotated
(still never rejected). -/
theorem rotate_mode_amended (mode : List ℤ) (index : ℤ) (h : mode ≠ []) :
    rotate_mode mode index =
      if (index - 1).natAbs ≤ mode.length then rotate_mode_spec mode index
      else mode := by
  have hL : 0 < mode.length := List.length_pos.mpr h
  have hL0 : (0 : ℤ) < (mode.length : ℤ) := by exact_mod_cast hL
  by_cases hin : (index - 1).natAbs ≤ mode.length
  · rw [if_pos hin]
    simp only [rotate_mode, rotate_mode_spec, pySliceIndex]
    by_cases hneg : index - 1 < 0
    · rw [if_pos hneg]
      have h1 : ((index - 1) + (mode.length : ℤ) * 1) % (mode.length : ℤ) =
          (index - 1) % (mode.length : ℤ) :=
        Int.add_mul_emod_self_left (index - 1) (mode.length : ℤ) 1
      have hmod : (index - 1) % (mode.length : ℤ) = index - 1 + mode.length := by
        rw [← h1, mul_one]
        exact Int.emod_eq_of_lt (by omega) (by omega)
      rw [hmod, List.rotate_eq_drop_append_take (by omega)]
      have hkk : (index - 1 + (mode.length : ℤ)).toNat =
          ((mode.length : ℤ) + (index - 1)).toNat := by omega
      rw [hkk]
    · rw [if_neg hneg]
      by_cases heq : index - 1 = (mode.length : ℤ)
      · have h1 : (index - 1) % (mode.length : ℤ) = 0 := by
          rw [heq, Int.emod_self]
        have h2 : min (index - 1).toNat mode.length = mode.length := by omega
        rw [h1, h2]
        simp
      · have hlt : index - 1 < (mode.length : ℤ) := by omega
        have hmod : (index - 1) % (mode.length : ℤ) = index - 1 :=
          Int.emod_eq_of_lt (by omega) hlt
        have h2 : min (index - 1).toNat mode.length = (index - 1).toNat := by
          omega
        rw [hmod, h2, List.rotate_eq_drop_append_take (by omega)]
  · rw [if_neg hin]
    simp only [rotate_mode, pySliceIndex]
    by_cases hneg : index - 1 < 0
    · rw [if_pos hneg]
      have h0 : ((mode.length : ℤ) + (index - 1)).toNat = 0 := by omega
      simp [h0]
    · rw [if_neg hneg]
      have h0 : min (index - 1).toNat mode.length = mode.length := by omega
      rw [h0]
      simp

/-- Witness for the amended C4: a rootIndex of 3 on the diatonic pattern
rotates left by 2. -/
theorem rotate_mode_amended_witness :
    ([2, 2, 1, 2, 2, 2, 1] : List ℤ) ≠ [] ∧
    rotate_mode [2, 2, 1, 2, 2, 2, 1] 3 =
      if ((3 : ℤ) - 1).natAbs ≤ ([2, 2, 1, 2, 2, 2, 1] : List ℤ).length
      then rotate_mode_spec [2, 2, 1, 2, 2, 2, 1] 3
      else [2, 2, 1, 2, 2, 2, 1] :=
  ⟨by decide, rotate_mode_amended [2, 2, 1, 2, 2, 2, 1] 3 (by decide)⟩

/-- C1: for every chromatic table of size `step ≥ 1`, non-empty rotated
pattern, and `numpipes ≥ 1`, the generated series has `frequency[0] =
chromaticTable[0]` and, for `1 ≤ i < numpipes`, `frequency[i] =
chromaticTable[chromaticIndex_i] * octaveMultiplier_i` where the two state
variables follow exactly the §4.3 recurrences (`specCf`, `specOct`). -/
theorem pipe_freqs_recurrence (mode : List ℤ) (step : ℕ) (chrom : List ℚ)
    (numpipes : ℕ) (hstep : 1 ≤ step) (hchrom : chrom.length = step)
    (hmode : mode ≠ []) (hnum : 1 ≤ numpipes) :
    (pipe_freqs mode step chrom numpipes).getD 0 0 = chrom.getD 0 0 ∧
    ∀ i, 1 ≤ i → i < numpipes →
      (pipe_freqs mode step chrom numpipes).getD i 0 =
        chrom.getD (specCf mode step i).toNat 0 * ((specOct mode i : ℤ) : ℚ) :=
  ⟨pipe_freqs_getD_zero mode step chrom numpipes hnum,
   fun i h1 h2 => pipe_freqs_getD_pos mode step chrom numpipes i hnum h1 h2⟩

/-- Witness for C1: the diatonic pattern, a concrete 12-entry table, 8 pipes. -/
theorem pipe_freqs_recurrence_witness :
    (1 ≤ 12 ∧ (chrom_freqs 5 3 12).length = 12 ∧
      ([2, 2, 1, 2, 2, 2, 1] : List ℤ) ≠ [] ∧ 1 ≤ 8) ∧
    ((pipe_freqs [2, 2, 1, 2, 2, 2, 1] 12 (chrom_freqs 5 3 12) 8).getD 0 0 =
        (chrom_freqs 5 3 12).getD 0 0 ∧
     ∀ i, 1 ≤ i → i < 8 →
       (pipe_freqs [2, 2, 1, 2, 2, 2, 1] 12 (chrom_freqs 5 3 12) 8).getD i 0 =
         (chrom_freqs 5 3 12).getD (specCf [2, 2, 1, 2, 2, 2, 1] 12 i).toNat 0 *
           ((specOct [2, 2, 1, 2, 2, 2, 1] i : ℤ) : ℚ)) :=
  ⟨⟨by decide, by decide, by decide, by decide⟩,
   pipe_freqs_recurrence [2, 2, 1, 2, 2, 2, 1] 12 (chrom_freqs 5 3 12) 8
     (by decide) (by decide) (by decide) (by decide)⟩

/-- C9: the generation loop as written — the shortcut branch of lines 97-100
included — produces exactly the plain §4.3 recurrence series, because the
guard variable reassigned on line 94 is false whatever the inputs are, so the
shortcut branch never runs. -/
theorem pipe_loop_refines_recurrence (mode : List ℤ) (step : ℕ)
    (chrom : List ℚ) (numpipes : ℕ) (hnum : 1 ≤ numpipes) :
    double_safe_at_loop mode step = false ∧
    pipe_freqs mode step chrom numpipes = specPipeSeries mode step chrom numpipes :=
  ⟨rfl, pipe_freqs_eq_spec mode step chrom numpipes hnum⟩

/-- Witness for C9 on a pattern that does not tile the octave. -/
theorem pipe_loop_refines_recurrence_witness :
    1 ≤ 5 ∧
    (double_safe_at_loop [3, 3, 3] 12 = false ∧
     pipe_freqs [3, 3, 3] 12 (chrom_freqs 7 2 12) 5 =
       specPipeSeries [3, 3, 3] 12 (chrom_freqs 7 2 12) 5) :=
  ⟨by decide,
   pipe_loop_refines_recurrence [3, 3, 3] 12 (chrom_freqs 7 2 12) 5 (by decide)⟩

/-- C3: with the default chromatic pattern and 13 pipes the 13th pipe is one
exact octave above the fundamental, and with the diatonic pattern and 8 pipes
the 8th pipe is one exact octave above the fundamental — in both cases the
octave closes at pipe index `cycleLength`, for every fundamental and step
ratio. -/
theorem octave_closure (fundamental et_step : ℚ) :
    (pipe_freqs (List.replicate 12 1) 12 (chrom_freqs fundamental et_step 12)
        13).getD 12 0 = fundamental * 2 ∧
    (pipe_freqs [2, 2, 1, 2, 2, 2, 1] 12 (chrom_freqs fundamental et_step 12)
        8).getD 7 0 = fundamental * 2 := by
  constructor
  · rw [pipe_freqs_getD_pos (List.replicate 12 1) 12 _ 13 12 (by norm_num)
      (by norm_num) (by norm_num)]
    have hcf : specCf (List.replicate 12 1) 12 12 = 0 := by decide
    have hoct : specOct (List.replicate 12 1) 12 = 2 := by decide
    rw [hcf, hoct]
    rw [show ((0 : ℤ)).toNat = 0 from rfl,
      chrom_freqs_getD _ _ _ _ (by norm_num)]
    show fundamental * ((2 : ℤ) : ℚ) = fundamental * 2
    norm_num
  · rw [pipe_freqs_getD_pos [2, 2, 1, 2, 2, 2, 1] 12 _ 8 7 (by norm_num)
      (by norm_num) (by norm_num)]
    have hcf : specCf [2, 2, 1, 2, 2, 2, 1] 12 7 = 0 := by decide
    have hoct : specOct [2, 2, 1, 2, 2, 2, 1] 7 = 2 := by decide
    rw [hcf, hoct]
    rw [show ((0 : ℤ)).toNat = 0 from rfl,
      chrom_freqs_getD _ _ _ _ (by norm_num)]
    show fundamental * ((2 : ℤ) : ℚ) = fundamental * 2
    norm_num

/-- C6: a non-empty pattern whose steps do not sum to `stepsPerOctave` makes
the advisory fire, yet the run still produces — without any error and with the
pattern used as given — a series of exactly `numpipes` entries following the
§4.3 recurrence. -/
theorem mismatched_sum_still_runs (mode : List ℤ) (step numpipes : ℕ)
    (fundamental et_step : ℚ) (hmode : mode ≠ []) (hstep : 1 ≤ step)
    (hnum : 1 ≤ numpipes) (hsum : mode.sum ≠ (step : ℤ)) :
    warning_emitted mode step = true ∧
    pipe_freqsE mode step (chrom_freqs fundamental et_step step) numpipes =
      .ok (pipe_freqs mode step (chrom_freqs fundamental et_step step) numpipes) ∧
    (pipe_freqs mode step (chrom_freqs fundamental et_step step) numpipes).length
      = numpipes ∧
    ∀ i, 1 ≤ i → i < numpipes →
      (pipe_freqs mode step (chrom_freqs fundamental et_step step) numpipes).getD
          i 0 =
        (chrom_freqs fundamental et_step step).getD (specCf mode step i).toNat 0 *
          ((specOct mode i : ℤ) : ℚ) := by
  refine ⟨?_, ?_, pipe_freqs_length _ _ _ _ hnum,
    fun i h1 h2 => pipe_freqs_getD_pos _ _ _ _ i hnum h1 h2⟩
  · simp [warning_emitted, hsum]
  · unfold pipe_freqsE pipe_freqs
    rw [pipeAuxE_ok _ _ _ hmode]
    rfl

/-- Witness for C6: pattern `[3, 3, 3]` against 12 steps per octave. -/
theorem mismatched_sum_still_runs_witness :
    (([3, 3, 3] : List ℤ) ≠ [] ∧ 1 ≤ 12 ∧ 1 ≤ 5 ∧
      ([3, 3, 3] : List ℤ).sum ≠ (12 : ℤ)) ∧
    (warning_emitted [3, 3, 3] 12 = true ∧
     pipe_freqsE [3, 3, 3] 12 (chrom_freqs 4 9 12) 5 =
       .ok (pipe_freqs [3, 3, 3] 12 (chrom_freqs 4 9 12) 5) ∧
     (pipe_freqs [3, 3, 3] 12 (chrom_freqs 4 9 12) 5).length = 5 ∧
     ∀ i, 1 ≤ i → i < 5 →
       (pipe_freqs [3, 3, 3] 12 (chrom_freqs 4 9 12) 5).getD i 0 =
         (chrom_freqs 4 9 12).getD (specCf [3, 3, 3] 12 i).toNat 0 *
           ((specOct [3, 3, 3] i : ℤ) : ℚ)) :=
  ⟨⟨by decide, by decide, by decide, by decide⟩,
   mismatched_sum_still_runs [3, 3, 3] 12 5 4 9 (by decide) (by decide)
     (by decide) (by decide)⟩

/-- C7: a zero fundamental (with the other parameters at their defaults), a
zero `stepsPerOctave`, or an empty pattern with the default 13 pipes each make
the run terminate with a division-by-zero error instead of completing; nothing
validates these parameters before the failing arithmetic. -/
theorem zero_parameters_fault (et_step fundamental velocity plug diameter : ℚ) :
    (pypesRun et_step 0 12 13 (List.replicate 12 1) velocity plug diameter =
      .error "ZeroDivisionError: float division by zero") ∧
    (∀ (numpipes : ℕ) (mode : List ℤ),
      pypesRun et_step fundamental 0 numpipes mode velocity plug diameter =
        .error "ZeroDivisionError: float division by zero") ∧
    (pypesRun et_step fundamental 12 13 [] velocity plug diameter =
      .error "ZeroDivisionError: integer modulo by zero") := by
  refine ⟨?_, fun numpipes mode => rfl, ?_⟩
  · have hok : pipe_freqsE (List.replicate 12 1) 12 (chrom_freqs 0 et_step 12) 13 =
        .ok (pipe_freqs (List.replicate 12 1) 12 (chrom_freqs 0 et_step 12) 13) := by
      unfold pipe_freqsE pipe_freqs
      rw [pipeAuxE_ok _ _ _ (by decide)]
      rfl
    obtain ⟨t, ht⟩ := pipe_freqs_zero_head et_step (List.replicate 12 1) 12 13
      (by norm_num)
    show Except.bind (pipe_freqsE (List.replicate 12 1) 12
        (chrom_freqs 0 et_step 12) 13)
      (fun freqs => freqs.mapM fun f => get_lengthE f velocity plug diameter) = _
    rw [hok, except_bind_ok, ht]
    exact mapM_get_lengthE_zero_head t velocity plug diameter
  · have hE : pipe_freqsE [] 12 (chrom_freqs fundamental et_step 12) 13 =
        .error "ZeroDivisionError: integer modulo by zero" := by
      unfold pipe_freqsE
      rw [pipeAuxE_nil 12 _ 12 (by norm_num)]
      rfl
    show Except.bind (pipe_freqsE [] 12 (chrom_freqs fundamental et_step 12) 13)
      (fun freqs => freqs.mapM fun f => get_lengthE f velocity plug diameter) = _
    rw [hE, except_bind_error]

end Pypes
